import Mathlib

/-!
Shallow embedding of
src/metadata-ingestion/src/datahub/ingestion/source/sagemaker_processors/models.py
(the SageMaker model/group/endpoint metadata extractor), together with
theorems settling the specification claims about it.

Python dictionaries that are only read through lookup and membership tests
are embedded as functions String -> Option String; defaultdicts that are
read with a default are embedded as total functions.  Sets that are only
ever converted to sorted lists are embedded as lists together with an
explicit dedup.  A Python KeyError is embedded as Option.none.
-/

/-- The canonical deployment-status enum (DeploymentStatusClass values).
Modelled from the spec: datahub.metadata.schema_classes is outside src/,
the spec fixes the canonical enum of lifecycle states. -/
inductive DeploymentStatus where
  | OUT_OF_SERVICE
  | CREATING
  | UPDATING
  | ROLLING_BACK
  | IN_SERVICE
  | DELETING
  | FAILED
  | UNKNOWN
deriving DecidableEq, Repr

/-- Job direction enum (JobDirection from sagemaker_processors.jobs).
Modelled from the spec: jobs.py is outside src/, the spec fixes the two
directions TRAINING and DOWNSTREAM. -/
inductive JobDirection where
  | TRAINING
  | DOWNSTREAM
deriving DecidableEq, Repr

/-- OwnershipTypeClass values used by this module.
Modelled from the spec: schema_classes is outside src/; only DATAOWNER is
used here. -/
inductive OwnershipType where
  | DATAOWNER
deriving DecidableEq, Repr

/-- A job reference (ModelJob from sagemaker_processors.jobs).
Modelled from the spec: identity (URN) and direction. -/
structure ModelJob where
  job_urn : String
  job_direction : JobDirection
deriving DecidableEq, Repr

/-- ENDPOINT_STATUS_MAP from models.py: the fixed nine-entry dictionary
from raw status strings to canonical statuses; lookup of any other key
yields none (dict.get). -/
def ENDPOINT_STATUS_MAP (s : String) : Option DeploymentStatus :=
  if s = "OutOfService" then some DeploymentStatus.OUT_OF_SERVICE
  else if s = "Creating" then some DeploymentStatus.CREATING
  else if s = "Updating" then some DeploymentStatus.UPDATING
  else if s = "SystemUpdating" then some DeploymentStatus.UPDATING
  else if s = "RollingBack" then some DeploymentStatus.ROLLING_BACK
  else if s = "InService" then some DeploymentStatus.IN_SERVICE
  else if s = "Deleting" then some DeploymentStatus.DELETING
  else if s = "Failed" then some DeploymentStatus.FAILED
  else if s = "Unknown" then some DeploymentStatus.UNKNOWN
  else none

/-- A Python dict from strings to strings, as used for the side tables
endpoint_arn_to_name, model_uri_to_name and model_image_to_name: only
lookup, membership and assignment are performed on them. -/
def StrDict : Type := String → Option String

/-- The empty dict. -/
def dictEmpty : StrDict := fun _ => none

/-- Dict assignment d[k] = v. -/
def dictInsert (d : StrDict) (k v : String) : StrDict :=
  fun x => if x = k then some v else d x

/-- Membership test k in d. -/
def dictContains (d : StrDict) (k : String) : Bool :=
  (d k).isSome

/-- SagemakerSourceReport: counters plus the recorded warnings, each a
(key, message) pair as passed to report_warning. -/
structure SagemakerSourceReport where
  endpoints_scanned : Nat := 0
  models_scanned : Nat := 0
  groups_scanned : Nat := 0
  workunits_produced : Nat := 0
  warnings : List (String × String) := []
deriving DecidableEq, Repr

/-- report.report_warning(key, reason). -/
def report_warning (r : SagemakerSourceReport) (key reason : String) :
    SagemakerSourceReport :=
  { r with warnings := r.warnings ++ [(key, reason)] }

/-- report.report_endpoint_scanned(). -/
def report_endpoint_scanned (r : SagemakerSourceReport) : SagemakerSourceReport :=
  { r with endpoints_scanned := r.endpoints_scanned + 1 }

/-- report.report_model_scanned(). -/
def report_model_scanned (r : SagemakerSourceReport) : SagemakerSourceReport :=
  { r with models_scanned := r.models_scanned + 1 }

/-- report.report_group_scanned(). -/
def report_group_scanned (r : SagemakerSourceReport) : SagemakerSourceReport :=
  { r with groups_scanned := r.groups_scanned + 1 }

/-- report.report_workunit(wu). -/
def report_workunit (r : SagemakerSourceReport) : SagemakerSourceReport :=
  { r with workunits_produced := r.workunits_produced + 1 }

/-- A describe_endpoint payload.  Fields accessed structurally by the code
are explicit; items is the raw items() view used to build
customProperties (values already stringified). -/
structure EndpointDetail where
  EndpointName : String
  EndpointArn : String
  EndpointStatus : Option String
  CreationTime : Option Int
  items : List (String × String) := []
deriving DecidableEq, Repr

/-- The PrimaryContainer sub-dict of a model detail. -/
structure PrimaryContainerInfo where
  Image : Option String
  ModelDataUrl : Option String
deriving DecidableEq, Repr

/-- One entry of the Containers list of a model detail. -/
structure ContainerInfo where
  ModelDataUrl : Option String
deriving DecidableEq, Repr

/-- A describe_model payload. -/
structure ModelDetail where
  ModelName : String
  CreationTime : Option Int
  PrimaryContainer : Option PrimaryContainerInfo
  Containers : List ContainerInfo := []
  items : List (String × String) := []
deriving DecidableEq, Repr

/-- The CreatedBy sub-dict of a group detail. -/
structure CreatedByInfo where
  UserProfileName : Option String
deriving DecidableEq, Repr

/-- A describe_model_package_group payload. -/
structure GroupDetail where
  ModelPackageGroupName : String
  ModelPackageGroupArn : String
  ModelPackageGroupDescription : Option String
  CreatedBy : Option CreatedByInfo
  CreationTime : Option Int
  items : List (String × String) := []
deriving DecidableEq, Repr

/-- LineageInfo. Modelled from the spec: lineage.py is outside src/; the
spec fixes four mappings: image-path to endpoint-ARN-set and model-uri to
endpoint-ARN-set (defaultdicts, read without a membership guard, an
absent key giving the empty set), and group-ARN to model-uri-set and
group-ARN to image-path-set (read behind a membership guard). -/
structure LineageInfo where
  model_image_endpoints : String → List String
  model_uri_endpoints : String → List String
  group_model_uris : String → Option (List String)
  group_model_images : String → Option (List String)

/-- Modelled from the spec: builder.make_ml_model_deployment_urn
(mce_builder is outside src/); a URN is a stable string identifier
embedding platform, name and environment. -/
def make_ml_model_deployment_urn (platform name env : String) : String :=
  "urn:li:mlModelDeployment:(urn:li:dataPlatform:" ++ platform ++ "," ++
    name ++ "," ++ env ++ ")"

/-- Modelled from the spec: builder.make_ml_model_urn (outside src/). -/
def make_ml_model_urn (platform name env : String) : String :=
  "urn:li:mlModel:(urn:li:dataPlatform:" ++ platform ++ "," ++
    name ++ "," ++ env ++ ")"

/-- Modelled from the spec: builder.make_ml_model_group_urn (outside src/). -/
def make_ml_model_group_urn (platform name env : String) : String :=
  "urn:li:mlModelGroup:(urn:li:dataPlatform:" ++ platform ++ "," ++
    name ++ "," ++ env ++ ")"

/-- MLModelDeploymentPropertiesClass fields set by get_endpoint_wu. -/
structure MLModelDeploymentProperties where
  createdAt : Int
  status : DeploymentStatus
  customProperties : List (String × String)
deriving DecidableEq, Repr

/-- MLModelPropertiesClass fields set by get_model_wu. -/
structure MLModelProperties where
  date : Int
  deployments : List String
  customProperties : List (String × String)
  trainingJobs : List String
  downstreamJobs : List String
deriving DecidableEq, Repr

/-- MLModelGroupPropertiesClass fields set by get_group_wu. -/
structure MLModelGroupProperties where
  createdAt : Int
  description : Option String
  customProperties : List (String × String)
  models : List String
deriving DecidableEq, Repr

/-- OwnerClass. -/
structure OwnerClass where
  owner : String
  type : OwnershipType
deriving DecidableEq, Repr

/-- The proposed snapshot carried by a workunit: one of the three
snapshot kinds this module emits, with its aspects. -/
inductive Snapshot where
  | endpointSnap (urn : String) (props : MLModelDeploymentProperties)
  | modelSnap (urn : String) (props : MLModelProperties)
  | groupSnap (urn : String) (props : MLModelGroupProperties)
      (ownership : List OwnerClass)
deriving DecidableEq, Repr

/-- MetadataWorkUnit: id plus the metadata change event snapshot. -/
structure MetadataWorkUnit where
  id : String
  mce : Snapshot
deriving DecidableEq, Repr

/-- get_endpoint_status from models.py.  Note the parameter order of the
source: (endpoint_name, endpoint_arn, sagemaker_status). -/
def get_endpoint_status (report : SagemakerSourceReport)
    (endpoint_name endpoint_arn sagemaker_status : String) :
    DeploymentStatus × SagemakerSourceReport :=
  match ENDPOINT_STATUS_MAP sagemaker_status with
  | some endpoint_status => (endpoint_status, report)
  | none =>
      (DeploymentStatus.UNKNOWN,
        report_warning report endpoint_arn
          ("Unknown status for " ++ endpoint_name ++ " (" ++ endpoint_arn ++
            "): " ++ sagemaker_status))

/-- get_endpoint_wu from models.py.  The call to get_endpoint_status
passes EndpointArn as the first (endpoint_name) argument and EndpointName
as the second (endpoint_arn) argument, exactly as the source does;
missing EndpointStatus defaults to the string Unknown, and a missing
CreationTime defaults to the clock value now. -/
def get_endpoint_wu (env : String) (now : Int) (report : SagemakerSourceReport)
    (endpoint_details : EndpointDetail) :
    MetadataWorkUnit × SagemakerSourceReport :=
  let redundant_fields : List String := ["EndpointName", "CreationTime"]
  let sr := get_endpoint_status report endpoint_details.EndpointArn
      endpoint_details.EndpointName (endpoint_details.EndpointStatus.getD "Unknown")
  (⟨endpoint_details.EndpointName,
    Snapshot.endpointSnap
      (make_ml_model_deployment_urn "sagemaker" endpoint_details.EndpointName env)
      { createdAt := endpoint_details.CreationTime.getD now
        status := sr.1
        customProperties :=
          endpoint_details.items.filter
            (fun kv => !(redundant_fields.contains kv.1)) }⟩,
    sr.2)

/-- The static inputs of the ModelProcessor dataclass other than the
client and the mutable tables: environment, lineage index and the two
job mappings (defaultdicts read with .get and a set default, hence total
functions into lists-as-sets). -/
structure ModelProcessorData where
  env : String
  lineage : LineageInfo
  model_image_to_jobs : String → List ModelJob
  model_name_to_jobs : String → List ModelJob

/-- The two side tables of the processor mutated during model
processing: model_uri_to_name and model_image_to_name. -/
structure ModelState where
  model_uri_to_name : StrDict
  model_image_to_name : StrDict

/-- model_details.get("PrimaryContainer", \x7b\x7d).get("ModelDataUrl"). -/
def primary_uri (d : ModelDetail) : Option String :=
  d.PrimaryContainer.bind (fun pc => pc.ModelDataUrl)

/-- model_details.get("PrimaryContainer", \x7b\x7d).get("Image"). -/
def primary_image (d : ModelDetail) : Option String :=
  d.PrimaryContainer.bind (fun pc => pc.Image)

/-- The model_data_urls list built in get_model_wu: the ModelDataUrl of
every secondary container, then the primary container's ModelDataUrl. -/
def model_data_urls (d : ModelDetail) : List String :=
  d.Containers.filterMap (fun c => c.ModelDataUrl) ++
    (match primary_uri d with
     | some u => [u]
     | none => [])

/-- sorted(...) on a list of strings (Python sorted, stable mergesort). -/
def sortedStr (l : List String) : List String :=
  l.mergeSort (fun a b => decide (a ≤ b))

/-- get_model_wu from models.py.  Sets are embedded as lists with an
explicit dedup before the final sorted(...); the two side-table writes
and the two lineage lookups are guarded on the presence of the primary
container's Image and ModelDataUrl exactly as in the source.  Returns
the workunit and the updated side tables (the report is not touched by
this function). -/
def get_model_wu (P : ModelProcessorData) (now : Int) (st : ModelState)
    (model_details : ModelDetail) (endpoint_arn_to_name : StrDict) :
    MetadataWorkUnit × ModelState :=
  let redundant_fields : List String := ["ModelName", "CreationTime"]
  let model_image := primary_image model_details
  let model_uri := primary_uri model_details
  -- get endpoints and groups by model image
  let image_endpoints : List String :=
    match model_image with
    | some img => P.lineage.model_image_endpoints img
    | none => []
  let st1 : ModelState :=
    match model_image with
    | some img =>
        { st with model_image_to_name :=
            dictInsert st.model_image_to_name img model_details.ModelName }
    | none => st
  -- get endpoints and groups by model uri
  let uri_endpoints : List String :=
    match model_uri with
    | some uri => P.lineage.model_uri_endpoints uri
    | none => []
  let st2 : ModelState :=
    match model_uri with
    | some uri =>
        { st1 with model_uri_to_name :=
            dictInsert st1.model_uri_to_name uri model_details.ModelName }
    | none => st1
  let model_endpoints : List String := (image_endpoints ++ uri_endpoints).dedup
  -- sort endpoints and groups for consistency
  let model_endpoints_sorted : List String :=
    sortedStr (model_endpoints.filter
      (fun x => dictContains endpoint_arn_to_name x))
  -- jobs matched through every model-data URL, looked up (as the source
  -- does) in the image-keyed job mapping, plus jobs matched by name
  let data_url_matched_jobs : List ModelJob :=
    (model_data_urls model_details).flatMap P.model_image_to_jobs
  let name_matched_jobs : List ModelJob :=
    P.model_name_to_jobs model_details.ModelName
  let model_training_jobs : List String :=
    ((data_url_matched_jobs ++ name_matched_jobs).filterMap
      (fun job =>
        if job.job_direction = JobDirection.TRAINING then some job.job_urn
        else none)).dedup
  let model_downstream_jobs : List String :=
    ((data_url_matched_jobs ++ name_matched_jobs).filterMap
      (fun job =>
        if job.job_direction = JobDirection.DOWNSTREAM then some job.job_urn
        else none)).dedup
  (⟨model_details.ModelName,
    Snapshot.modelSnap
      (make_ml_model_urn "sagemaker" model_details.ModelName P.env)
      { date := model_details.CreationTime.getD now
        deployments :=
          model_endpoints_sorted.map
            (fun endpoint_name =>
              make_ml_model_deployment_urn "sagemaker" endpoint_name P.env)
        customProperties :=
          model_details.items.filter
            (fun kv => !(redundant_fields.contains kv.1))
        trainingJobs := sortedStr model_training_jobs
        downstreamJobs := sortedStr model_downstream_jobs }⟩,
    st2)

/-- Looks every list element up in a dict, failing (Python KeyError) on
the first absent key: the embedding of the set comprehension
d[x] for x in l. -/
def lookup_all (d : StrDict) : List String → Option (List String)
  | [] => some []
  | x :: xs =>
      match d x with
      | none => none
      | some n => (lookup_all d xs).map (fun ns => n :: ns)

/-- get_group_wu from models.py.  Both membership guards test
model_uri_to_name, exactly as the source does — also in the image branch,
whose lookups then index model_image_to_name and can fail (KeyError,
embedded as none). -/
def get_group_wu (P : ModelProcessorData) (now : Int) (st : ModelState)
    (group_details : GroupDetail) : Option MetadataWorkUnit :=
  let redundant_fields : List String := ["ModelPackageGroupName", "CreationTime"]
  let group_arn := group_details.ModelPackageGroupArn
  let uri_names : Option (List String) :=
    match P.lineage.group_model_uris group_arn with
    | some model_uris =>
        lookup_all st.model_uri_to_name
          (model_uris.filter (fun x => dictContains st.model_uri_to_name x))
    | none => some []
  let image_names : Option (List String) :=
    match P.lineage.group_model_images group_arn with
    | some model_images =>
        lookup_all st.model_image_to_name
          (model_images.filter (fun x => dictContains st.model_uri_to_name x))
    | none => some []
  match uri_names, image_names with
  | some uns, some ins =>
      let group_model_names : List String := (uns ++ ins).dedup
      let owners : List OwnerClass :=
        match group_details.CreatedBy.bind (fun c => c.UserProfileName) with
        | some u => [⟨u, OwnershipType.DATAOWNER⟩]
        | none => []
      some ⟨group_details.ModelPackageGroupName,
        Snapshot.groupSnap
          (make_ml_model_group_urn "sagemaker"
            group_details.ModelPackageGroupName P.env)
          { createdAt := group_details.CreationTime.getD now
            description := group_details.ModelPackageGroupDescription
            customProperties :=
              group_details.items.filter
                (fun kv => !(redundant_fields.contains kv.1))
            models :=
              sortedStr (group_model_names.map
                (fun model_name => make_ml_model_urn "sagemaker" model_name P.env)) }
          owners⟩
  | _, _ => none

/-- A list_endpoints summary entry. -/
structure EndpointSummary where
  EndpointName : String
  EndpointArn : String
deriving DecidableEq, Repr

/-- A list_models summary entry. -/
structure ModelSummary where
  ModelName : String
  ModelArn : String
deriving DecidableEq, Repr

/-- A list_model_package_groups summary entry. -/
structure GroupSummary where
  ModelPackageGroupName : String
deriving DecidableEq, Repr

/-- The directory client: the fully paginated listings (get_all_models,
get_all_groups and get_all_endpoints concatenate all pages, embedded
here as the already-concatenated lists) and the describe calls. -/
structure SagemakerClient where
  list_endpoints : List EndpointSummary
  describe_endpoint : String → EndpointDetail
  list_models : List ModelSummary
  describe_model : String → ModelDetail
  list_model_package_groups : List GroupSummary
  describe_model_package_group : String → GroupDetail

/-- Python sorted(l, key=...) with a string key: stable mergesort. -/
def sortByKey {α : Type} (key : α → String) (l : List α) : List α :=
  l.mergeSort (fun a b => decide (key a ≤ key b))

/-- The endpoint loop of get_workunits: for each listed endpoint fetch
details, record arnToName[listing arn] = detail name, bump the scanned
counter, build the workunit, bump the workunit counter, yield. -/
def endpoints_pass (env : String) (now : Int)
    (describe : String → EndpointDetail) :
    List EndpointSummary → StrDict → SagemakerSourceReport →
      StrDict × List MetadataWorkUnit × SagemakerSourceReport
  | [], endpoint_arn_to_name, report => (endpoint_arn_to_name, [], report)
  | endpoint :: rest, endpoint_arn_to_name, report =>
      let endpoint_details := describe endpoint.EndpointName
      let arnToName :=
        dictInsert endpoint_arn_to_name endpoint.EndpointArn
          endpoint_details.EndpointName
      let report1 := report_endpoint_scanned report
      let wr := get_endpoint_wu env now report1 endpoint_details
      let report2 := report_workunit wr.2
      let tail := endpoints_pass env now describe rest arnToName report2
      (tail.1, wr.1 :: tail.2.1, tail.2.2)

/-- The model loop of get_workunits. -/
def models_pass (P : ModelProcessorData) (now : Int)
    (describe : String → ModelDetail) (endpoint_arn_to_name : StrDict) :
    List ModelSummary → ModelState → SagemakerSourceReport →
      ModelState × List MetadataWorkUnit × SagemakerSourceReport
  | [], st, report => (st, [], report)
  | model :: rest, st, report =>
      let model_details := describe model.ModelName
      let report1 := report_model_scanned report
      let ws := get_model_wu P now st model_details endpoint_arn_to_name
      let report2 := report_workunit report1
      let tail := models_pass P now describe endpoint_arn_to_name rest ws.2 report2
      (tail.1, ws.1 :: tail.2.1, tail.2.2)

/-- The group loop of get_workunits.  The scanned counter is bumped
before get_group_wu runs, as in the source; a KeyError (none) aborts the
loop after the workunits already yielded, with the Bool flag false. -/
def groups_pass (P : ModelProcessorData) (now : Int)
    (describe : String → GroupDetail) (st : ModelState) :
    List GroupSummary → SagemakerSourceReport →
      List MetadataWorkUnit × SagemakerSourceReport × Bool
  | [], report => ([], report, true)
  | group :: rest, report =>
      let group_details := describe group.ModelPackageGroupName
      let report1 := report_group_scanned report
      match get_group_wu P now st group_details with
      | none => ([], report1, false)
      | some wu =>
          let report2 := report_workunit report1
          let tail := groups_pass P now describe st rest report2
          (wu :: tail.1, tail.2)

/-- get_workunits from models.py: sort each listing by its stable key,
run the three passes in dependency order, and return the yielded
workunits in order together with the final report and a flag that is
false when the group pass raised (KeyError). -/
def get_workunits (P : ModelProcessorData) (now : Int)
    (client : SagemakerClient) :
    List MetadataWorkUnit × SagemakerSourceReport × Bool :=
  let endpoints := sortByKey (fun e => e.EndpointArn) client.list_endpoints
  let ep := endpoints_pass P.env now client.describe_endpoint endpoints
    dictEmpty {}
  let endpoint_arn_to_name := ep.1
  let models := sortByKey (fun m => m.ModelArn) client.list_models
  let mp := models_pass P now client.describe_model endpoint_arn_to_name
    models ⟨dictEmpty, dictEmpty⟩ ep.2.2
  let groups := sortByKey (fun g => g.ModelPackageGroupName)
    client.list_model_package_groups
  let gp := groups_pass P now client.describe_model_package_group mp.1
    groups mp.2.2
  (ep.2.1 ++ mp.2.1 ++ gp.1, gp.2)

/-- The status carried by a workunit, when it is an endpoint record. -/
def wu_status (wu : MetadataWorkUnit) : Option DeploymentStatus :=
  match wu.mce with
  | Snapshot.endpointSnap _ props => some props.status
  | _ => none

/-- The deployments list of a model record (empty for other kinds). -/
def wu_deployments (wu : MetadataWorkUnit) : List String :=
  match wu.mce with
  | Snapshot.modelSnap _ props => props.deployments
  | _ => []

/-- The trainingJobs list of a model record (empty for other kinds). -/
def wu_trainingJobs (wu : MetadataWorkUnit) : List String :=
  match wu.mce with
  | Snapshot.modelSnap _ props => props.trainingJobs
  | _ => []

/-- The downstreamJobs list of a model record (empty for other kinds). -/
def wu_downstreamJobs (wu : MetadataWorkUnit) : List String :=
  match wu.mce with
  | Snapshot.modelSnap _ props => props.downstreamJobs
  | _ => []

/-- The member-model URN list of a group record (empty for other kinds). -/
def wu_models (wu : MetadataWorkUnit) : List String :=
  match wu.mce with
  | Snapshot.groupSnap _ props _ => props.models
  | _ => []

/-- The owner list of a group record (empty for other kinds). -/
def wu_owners (wu : MetadataWorkUnit) : List OwnerClass :=
  match wu.mce with
  | Snapshot.groupSnap _ _ ownership => ownership
  | _ => []

/-- C8: the status classification is exactly the fixed nine-entry
mapping — OutOfService, Creating, Updating, SystemUpdating, RollingBack,
InService, Deleting, Failed and Unknown map to their canonical statuses,
and every other string is unmapped. -/
theorem endpoint_status_map_is_fixed_nine_entries :
    (ENDPOINT_STATUS_MAP "OutOfService" = some DeploymentStatus.OUT_OF_SERVICE ∧
     ENDPOINT_STATUS_MAP "Creating" = some DeploymentStatus.CREATING ∧
     ENDPOINT_STATUS_MAP "Updating" = some DeploymentStatus.UPDATING ∧
     ENDPOINT_STATUS_MAP "SystemUpdating" = some DeploymentStatus.UPDATING ∧
     ENDPOINT_STATUS_MAP "RollingBack" = some DeploymentStatus.ROLLING_BACK ∧
     ENDPOINT_STATUS_MAP "InService" = some DeploymentStatus.IN_SERVICE ∧
     ENDPOINT_STATUS_MAP "Deleting" = some DeploymentStatus.DELETING ∧
     ENDPOINT_STATUS_MAP "Failed" = some DeploymentStatus.FAILED ∧
     ENDPOINT_STATUS_MAP "Unknown" = some DeploymentStatus.UNKNOWN) ∧
    ∀ s : String,
      s ∉ ["OutOfService", "Creating", "Updating", "SystemUpdating",
           "RollingBack", "InService", "Deleting", "Failed", "Unknown"] →
      ENDPOINT_STATUS_MAP s = none := by
  refine ⟨⟨rfl, rfl, rfl, rfl, rfl, rfl, rfl, rfl, rfl⟩, ?_⟩
  intro s hs
  simp only [List.mem_cons, List.not_mem_nil, or_false, not_or] at hs
  obtain ⟨h1, h2, h3, h4, h5, h6, h7, h8, h9⟩ := hs
  simp [ENDPOINT_STATUS_MAP, h1, h2, h3, h4, h5, h6, h7, h8, h9]

/-- Witness for C8: the unmapped string Paused is sent to none. -/
theorem endpoint_status_map_is_fixed_nine_entries_witness :
    ENDPOINT_STATUS_MAP "Paused" = none :=
  endpoint_status_map_is_fixed_nine_entries.2 "Paused" (by decide)

/-- C4: an endpoint detail whose status string is unmapped yields the
canonical status UNKNOWN, and exactly one warning is appended to the
report, whose key is the endpoint's name and whose message is built from
the endpoint's ARN, its name and the raw status; the workunit is still
produced (the scan continues). -/
theorem unmapped_status_yields_unknown_and_one_warning
    (env : String) (now : Int) (report : SagemakerSourceReport)
    (d : EndpointDetail) (s : String)
    (hs : d.EndpointStatus = some s)
    (hm : ENDPOINT_STATUS_MAP s = none) :
    wu_status (get_endpoint_wu env now report d).1 =
        some DeploymentStatus.UNKNOWN ∧
    ((get_endpoint_wu env now report d).2).warnings =
      report.warnings ++
        [(d.EndpointName,
          "Unknown status for " ++ d.EndpointArn ++ " (" ++ d.EndpointName ++
            "): " ++ s)] := by
  simp [get_endpoint_wu, get_endpoint_status, hs, hm, report_warning, wu_status]

/-- Concrete endpoint detail with the unmapped status Paused. -/
def pausedEndpointDetail : EndpointDetail :=
  { EndpointName := "ep1", EndpointArn := "arn1",
    EndpointStatus := some "Paused", CreationTime := some 0 }

/-- Witness for C4, at the spec's own example status Paused. -/
theorem unmapped_status_yields_unknown_and_one_warning_witness :
    wu_status (get_endpoint_wu "PROD" 0 {} pausedEndpointDetail).1 =
        some DeploymentStatus.UNKNOWN ∧
    ((get_endpoint_wu "PROD" 0 {} pausedEndpointDetail).2).warnings =
      ({} : SagemakerSourceReport).warnings ++
        [(pausedEndpointDetail.EndpointName,
          "Unknown status for " ++ pausedEndpointDetail.EndpointArn ++ " (" ++
            pausedEndpointDetail.EndpointName ++ "): " ++ "Paused")] :=
  unmapped_status_yields_unknown_and_one_warning "PROD" 0 {}
    pausedEndpointDetail "Paused" rfl rfl

/-- C10: an endpoint detail with no EndpointStatus field at all defaults
to the raw string Unknown, which is a mapped entry, so the record's
status is UNKNOWN and the report is unchanged (no warning). -/
theorem missing_status_field_is_unknown_without_warning
    (env : String) (now : Int) (report : SagemakerSourceReport)
    (d : EndpointDetail) (h : d.EndpointStatus = none) :
    wu_status (get_endpoint_wu env now report d).1 =
        some DeploymentStatus.UNKNOWN ∧
    (get_endpoint_wu env now report d).2 = report := by
  simp [get_endpoint_wu, get_endpoint_status, h, ENDPOINT_STATUS_MAP, wu_status]

/-- Concrete endpoint detail lacking the EndpointStatus field. -/
def statuslessEndpointDetail : EndpointDetail :=
  { EndpointName := "ep2", EndpointArn := "arn2",
    EndpointStatus := none, CreationTime := some 0 }

/-- Witness for C10. -/
theorem missing_status_field_is_unknown_without_warning_witness :
    wu_status (get_endpoint_wu "PROD" 0 {} statuslessEndpointDetail).1 =
        some DeploymentStatus.UNKNOWN ∧
    (get_endpoint_wu "PROD" 0 {} statuslessEndpointDetail).2 =
      ({} : SagemakerSourceReport) :=
  missing_status_field_is_unknown_without_warning "PROD" 0 {}
    statuslessEndpointDetail rfl

/-- C7: owner resolution of group records — with no CreatedBy field the
emitted record (when one is emitted) carries zero owner records; with
CreatedBy.UserProfileName = alice it carries exactly one owner record
for alice with type DATAOWNER. -/
theorem group_owner_resolution
    (P : ModelProcessorData) (now : Int) (st : ModelState)
    (d1 d2 : GroupDetail)
    (h1 : d1.CreatedBy = none)
    (h2 : d2.CreatedBy = some { UserProfileName := some "alice" }) :
    Option.map wu_owners (get_group_wu P now st d1) =
      Option.map (fun _ => ([] : List OwnerClass)) (get_group_wu P now st d1) ∧
    Option.map wu_owners (get_group_wu P now st d2) =
      Option.map (fun _ => [OwnerClass.mk "alice" OwnershipType.DATAOWNER])
        (get_group_wu P now st d2) := by
  constructor
  · simp only [get_group_wu]
    split
    · simp [wu_owners, h1]
    · rfl
  · simp only [get_group_wu]
    split
    · simp [wu_owners, h2]
    · rfl

/-- A processor input whose lineage index is empty. -/
def emptyProcessor : ModelProcessorData where
  env := "PROD"
  lineage :=
    { model_image_endpoints := fun _ => []
      model_uri_endpoints := fun _ => []
      group_model_uris := fun _ => none
      group_model_images := fun _ => none }
  model_image_to_jobs := fun _ => []
  model_name_to_jobs := fun _ => []

/-- Empty side tables. -/
def emptyModelState : ModelState :=
  { model_uri_to_name := dictEmpty, model_image_to_name := dictEmpty }

/-- Concrete group detail without a CreatedBy field. -/
def ownerlessGroupDetail : GroupDetail :=
  { ModelPackageGroupName := "g1", ModelPackageGroupArn := "garn1",
    ModelPackageGroupDescription := none, CreatedBy := none,
    CreationTime := some 0 }

/-- Concrete group detail created by the user profile alice. -/
def aliceGroupDetail : GroupDetail :=
  { ModelPackageGroupName := "g2", ModelPackageGroupArn := "garn2",
    ModelPackageGroupDescription := none,
    CreatedBy := some { UserProfileName := some "alice" },
    CreationTime := some 0 }

/-- Witness for C7. -/
theorem group_owner_resolution_witness :
    Option.map wu_owners
        (get_group_wu emptyProcessor 0 emptyModelState ownerlessGroupDetail) =
      Option.map (fun _ => ([] : List OwnerClass))
        (get_group_wu emptyProcessor 0 emptyModelState ownerlessGroupDetail) ∧
    Option.map wu_owners
        (get_group_wu emptyProcessor 0 emptyModelState aliceGroupDetail) =
      Option.map (fun _ => [OwnerClass.mk "alice" OwnershipType.DATAOWNER])
        (get_group_wu emptyProcessor 0 emptyModelState aliceGroupDetail) :=
  group_owner_resolution emptyProcessor 0 emptyModelState
    ownerlessGroupDetail aliceGroupDetail rfl rfl

/-- lookup_all fails (KeyError) as soon as some listed key is absent. -/
theorem lookup_all_eq_none (d : StrDict) (l : List String) (x : String)
    (hx : x ∈ l) (hd : d x = none) : lookup_all d l = none := by
  induction l with
  | nil => cases hx
  | cons a t ih =>
      cases hx with
      | head => simp [lookup_all, hd]
      | tail _ hmem =>
          simp only [lookup_all]
          cases hda : d a with
          | none => rfl
          | some n => rw [ih hmem]; rfl

/-- C9: whenever a group's Lineage Index image set contains an entry
that is a key of model_uri_to_name but not of model_image_to_name,
building the group record raises an uncaught KeyError (none): the
membership guard of the image branch consults model_uri_to_name while
the lookup indexes model_image_to_name. -/
theorem group_image_branch_keyerror
    (P : ModelProcessorData) (now : Int) (st : ModelState)
    (d : GroupDetail) (imgs : List String) (x : String)
    (hims : P.lineage.group_model_images d.ModelPackageGroupArn = some imgs)
    (hx : x ∈ imgs)
    (huri : dictContains st.model_uri_to_name x = true)
    (himg : st.model_image_to_name x = none) :
    get_group_wu P now st d = none := by
  have himage :
      (match P.lineage.group_model_images d.ModelPackageGroupArn with
        | some model_images =>
            lookup_all st.model_image_to_name
              (model_images.filter
                (fun x => dictContains st.model_uri_to_name x))
        | none => some ([] : List String)) = none := by
    rw [hims]
    exact lookup_all_eq_none _ _ x (List.mem_filter.mpr ⟨hx, huri⟩) himg
  simp only [get_group_wu, himage]
  split
  · rename_i heq
    cases heq
  · rfl

/-- A processor whose lineage links the group ARN garn to the image x. -/
def keyerrorProcessor : ModelProcessorData where
  env := "PROD"
  lineage :=
    { model_image_endpoints := fun _ => []
      model_uri_endpoints := fun _ => []
      group_model_uris := fun _ => none
      group_model_images := fun a => if a = "garn" then some ["x"] else none }
  model_image_to_jobs := fun _ => []
  model_name_to_jobs := fun _ => []

/-- Side tables where x is a model-uri key but not a model-image key. -/
def keyerrorModelState : ModelState :=
  { model_uri_to_name := dictInsert dictEmpty "x" "M1"
    model_image_to_name := dictEmpty }

/-- Concrete group detail whose ARN is garn. -/
def keyerrorGroupDetail : GroupDetail :=
  { ModelPackageGroupName := "g", ModelPackageGroupArn := "garn",
    ModelPackageGroupDescription := none, CreatedBy := none,
    CreationTime := some 0 }

/-- Witness for C9. -/
theorem group_image_branch_keyerror_witness :
    get_group_wu keyerrorProcessor 0 keyerrorModelState keyerrorGroupDetail =
      none :=
  group_image_branch_keyerror keyerrorProcessor 0 keyerrorModelState
    keyerrorGroupDetail ["x"] "x" rfl (by simp) rfl rfl

/-- An empty lineage index. -/
def emptyLineage : LineageInfo :=
  { model_image_endpoints := fun _ => []
    model_uri_endpoints := fun _ => []
    group_model_uris := fun _ => none
    group_model_images := fun _ => none }

/-- A processor whose lineage maps the image path img to the single
endpoint ARN arnEp1. -/
def arnProcessor : ModelProcessorData where
  env := "PROD"
  lineage :=
    { model_image_endpoints := fun i => if i = "img" then ["arnEp1"] else []
      model_uri_endpoints := fun _ => []
      group_model_uris := fun _ => none
      group_model_images := fun _ => none }
  model_image_to_jobs := fun _ => []
  model_name_to_jobs := fun _ => []

/-- First-pass index mapping the endpoint ARN arnEp1 to the name ep1. -/
def arnEndpointTable : StrDict := dictInsert dictEmpty "arnEp1" "ep1"

/-- A model whose primary container has image img and no data URL. -/
def imageOnlyModelDetail : ModelDetail :=
  { ModelName := "m1", CreationTime := some 0,
    PrimaryContainer := some { Image := some "img", ModelDataUrl := none } }

/-- C1 (code evaluated at the failing input): the model record's
deployment list is built from the raw endpoint ARN arnEp1 — the code
never maps the filtered ARNs through endpoint_arn_to_name — so it
differs from the list built from the endpoint name ep1 that the claim
requires. -/
theorem model_deployments_keep_arns_instead_of_names :
    wu_deployments
        (get_model_wu arnProcessor 0 emptyModelState imageOnlyModelDetail
          arnEndpointTable).1 =
      [make_ml_model_deployment_urn "sagemaker" "arnEp1" "PROD"] ∧
    [make_ml_model_deployment_urn "sagemaker" "arnEp1" "PROD"] ≠
      [make_ml_model_deployment_urn "sagemaker" "ep1" "PROD"] := by
  constructor
  · simp [get_model_wu, wu_deployments, sortedStr, dictContains, dictInsert,
      dictEmpty, arnProcessor, arnEndpointTable, imageOnlyModelDetail,
      primary_image, primary_uri, model_data_urls, emptyModelState,
      List.mergeSort_singleton]
  · decide

/-- A processor whose lineage links group ARN garn to model URI u1 and
model image i2. -/
def groupLinkProcessor : ModelProcessorData where
  env := "PROD"
  lineage :=
    { model_image_endpoints := fun _ => []
      model_uri_endpoints := fun _ => []
      group_model_uris := fun a => if a = "garn" then some ["u1"] else none
      group_model_images := fun a => if a = "garn" then some ["i2"] else none }
  model_image_to_jobs := fun _ => []
  model_name_to_jobs := fun _ => []

/-- Side tables after model processing: u1 resolves to M1 through
model_uri_to_name and i2 resolves to M2 through model_image_to_name. -/
def twoModelState : ModelState :=
  { model_uri_to_name := dictInsert dictEmpty "u1" "M1"
    model_image_to_name := dictInsert dictEmpty "i2" "M2" }

/-- The group detail with ARN garn. -/
def linkedGroupDetail : GroupDetail :=
  { ModelPackageGroupName := "G", ModelPackageGroupArn := "garn",
    ModelPackageGroupDescription := none, CreatedBy := none,
    CreationTime := some 0 }

/-- C2 (code evaluated at the failing input): with the group linked to
model-URI u1 (resolving to M1) and image i2 (resolving to M2), the
emitted member list holds only M1 — the image branch's membership guard
consults model_uri_to_name, so i2 is dropped — where the claim requires
[M1, M2]. -/
theorem group_membership_drops_image_linked_model :
    Option.map wu_models
        (get_group_wu groupLinkProcessor 0 twoModelState linkedGroupDetail) =
      some [make_ml_model_urn "sagemaker" "M1" "PROD"] ∧
    some [make_ml_model_urn "sagemaker" "M1" "PROD"] ≠
      some [make_ml_model_urn "sagemaker" "M1" "PROD",
            make_ml_model_urn "sagemaker" "M2" "PROD"] := by
  constructor
  · simp [get_group_wu, wu_models, sortedStr, dictContains, dictInsert,
      dictEmpty, groupLinkProcessor, twoModelState, linkedGroupDetail,
      lookup_all, List.mergeSort_singleton]
  · decide

/-- A processor whose image-keyed job mapping files the jobs A (training)
and B (downstream) under the image path img, and nothing else. -/
def imageJobsProcessor : ModelProcessorData where
  env := "PROD"
  lineage := emptyLineage
  model_image_to_jobs := fun k =>
    if k = "img" then
      [⟨"A", JobDirection.TRAINING⟩, ⟨"B", JobDirection.DOWNSTREAM⟩]
    else []
  model_name_to_jobs := fun _ => []

/-- A model whose primary container has image path img and data URL uri
(distinct from img). -/
def imageAndUriModelDetail : ModelDetail :=
  { ModelName := "m1", CreationTime := some 0,
    PrimaryContainer := some { Image := some "img", ModelDataUrl := some "uri" } }

/-- Counterexample to C3: the image-keyed job mapping entry for the
model's image path img is the job set A-training, B-downstream, yet the
emitted record's training-job and downstream-job lists are both empty —
the code only looks the image-keyed mapping up by model-data URLs, never
by the image path. -/
theorem jobs_keyed_by_image_path_are_ignored :
    wu_trainingJobs
        (get_model_wu imageJobsProcessor 0 emptyModelState
          imageAndUriModelDetail dictEmpty).1 = [] ∧
    wu_downstreamJobs
        (get_model_wu imageJobsProcessor 0 emptyModelState
          imageAndUriModelDetail dictEmpty).1 = [] ∧
    ([] : List String) ≠ ["A"] := by
  refine ⟨?_, ?_, by decide⟩ <;>
    simp [get_model_wu, wu_trainingJobs, wu_downstreamJobs, sortedStr,
      dictContains, dictEmpty, imageJobsProcessor, imageAndUriModelDetail,
      primary_image, primary_uri, model_data_urls, emptyModelState,
      emptyLineage]

/-- C3 amended: when the job set A-training, B-downstream is keyed by
the model's sole model-data URI (and the name-keyed mapping holds
nothing for the model), the record's training-job list is exactly [A]
and its downstream-job list exactly [B]. -/
theorem jobs_partitioned_by_direction_for_data_uri
    (P : ModelProcessorData) (now : Int) (st : ModelState)
    (d : ModelDetail) (endpoint_arn_to_name : StrDict) (u A B : String)
    (hurls : model_data_urls d = [u])
    (hjobs : P.model_image_to_jobs u =
      [⟨A, JobDirection.TRAINING⟩, ⟨B, JobDirection.DOWNSTREAM⟩])
    (hname : P.model_name_to_jobs d.ModelName = []) :
    wu_trainingJobs (get_model_wu P now st d endpoint_arn_to_name).1 = [A] ∧
    wu_downstreamJobs (get_model_wu P now st d endpoint_arn_to_name).1 = [B] := by
  constructor <;>
    simp [get_model_wu, wu_trainingJobs, wu_downstreamJobs, hurls, hjobs,
      hname, sortedStr, List.mergeSort_singleton]

/-- A processor filing job A (training) and job B (downstream) under the
data URI u. -/
def uriJobsProcessor : ModelProcessorData where
  env := "PROD"
  lineage := emptyLineage
  model_image_to_jobs := fun k =>
    if k = "u" then
      [⟨"A", JobDirection.TRAINING⟩, ⟨"B", JobDirection.DOWNSTREAM⟩]
    else []
  model_name_to_jobs := fun _ => []

/-- A model whose single data URI is u. -/
def uriOnlyModelDetail : ModelDetail :=
  { ModelName := "m2", CreationTime := some 0,
    PrimaryContainer := some { Image := none, ModelDataUrl := some "u" } }

/-- Witness for the amended C3. -/
theorem jobs_partitioned_by_direction_for_data_uri_witness :
    wu_trainingJobs
        (get_model_wu uriJobsProcessor 0 emptyModelState uriOnlyModelDetail
          dictEmpty).1 = ["A"] ∧
    wu_downstreamJobs
        (get_model_wu uriJobsProcessor 0 emptyModelState uriOnlyModelDetail
          dictEmpty).1 = ["B"] :=
  jobs_partitioned_by_direction_for_data_uri uriJobsProcessor 0
    emptyModelState uriOnlyModelDetail dictEmpty "u" "A" "B" rfl rfl rfl

/-- The model_uri_to_name delta of one get_model_wu call: an insert when
the primary container has a ModelDataUrl, untouched otherwise. -/
theorem get_model_wu_uri_table (P : ModelProcessorData) (now : Int)
    (st : ModelState) (d : ModelDetail) (endpoint_arn_to_name : StrDict) :
    ((get_model_wu P now st d endpoint_arn_to_name).2).model_uri_to_name =
      match primary_uri d with
      | some v => dictInsert st.model_uri_to_name v d.ModelName
      | none => st.model_uri_to_name := by
  cases h1 : primary_image d <;> cases h2 : primary_uri d <;>
    simp [get_model_wu, h1, h2]

/-- The model_image_to_name delta of one get_model_wu call. -/
theorem get_model_wu_image_table (P : ModelProcessorData) (now : Int)
    (st : ModelState) (d : ModelDetail) (endpoint_arn_to_name : StrDict) :
    ((get_model_wu P now st d endpoint_arn_to_name).2).model_image_to_name =
      match primary_image d with
      | some v => dictInsert st.model_image_to_name v d.ModelName
      | none => st.model_image_to_name := by
  cases h1 : primary_image d <;> cases h2 : primary_uri d <;>
    simp [get_model_wu, h1, h2]

/-- The sequence of names written to model_uri_to_name under key u while
processing the listed models in order. -/
def uri_writes (describe : String → ModelDetail) (l : List ModelSummary)
    (u : String) : List String :=
  l.filterMap (fun m =>
    match primary_uri (describe m.ModelName) with
    | some v => if v = u then some (describe m.ModelName).ModelName else none
    | none => none)

/-- The sequence of names written to model_image_to_name under key i
while processing the listed models in order. -/
def image_writes (describe : String → ModelDetail) (l : List ModelSummary)
    (i : String) : List String :=
  l.filterMap (fun m =>
    match primary_image (describe m.ModelName) with
    | some v => if v = i then some (describe m.ModelName).ModelName else none
    | none => none)


/-- The value left in a cell after a sequence of writes, given its prior
value: the last write wins. -/
def last_write (ws : List String) (d0 : Option String) : Option String :=
  ws.foldl (fun _ n => some n) d0

/-- No write leaves the prior value. -/
theorem last_write_nil (d0 : Option String) : last_write [] d0 = d0 := rfl

/-- A first write supersedes the prior value. -/
theorem last_write_cons (a : String) (ws : List String) (d0 : Option String) :
    last_write (a :: ws) d0 = last_write ws (some a) := rfl

/-- Writes compose left to right. -/
theorem last_write_append (ws1 ws2 : List String) (d0 : Option String) :
    last_write (ws1 ++ ws2) d0 = last_write ws2 (last_write ws1 d0) := by
  simp [last_write, List.foldl_append]

/-- getLast? of a cons, expressed through the tail's getLast?. -/
theorem getLast?_cons_eq {α : Type} (t : List α) (b : α) :
    (b :: t).getLast? = some (t.getLast?.getD b) := by
  induction t generalizing b with
  | nil => rfl
  | cons c t' ih =>
      rw [List.getLast?_cons_cons, ih c]
      rfl

/-- Writing onto a some cell keeps the last write, else the prior. -/
theorem last_write_some (t : List String) :
    ∀ a, last_write t (some a) = some (t.getLast?.getD a) := by
  induction t with
  | nil => intro a; rfl
  | cons b t' ih =>
      intro a
      rw [last_write_cons, ih b, getLast?_cons_eq]
      rfl

/-- Writing onto an empty cell leaves the last write, if any. -/
theorem last_write_eq_getLast? (ws : List String) :
    last_write ws none = ws.getLast? := by
  cases ws with
  | nil => rfl
  | cons a t =>
      rw [last_write_cons, last_write_some, getLast?_cons_eq]

/-- uri_writes over a cons whose head model has no primary data URL. -/
theorem uri_writes_cons_none (describe : String → ModelDetail)
    (m : ModelSummary) (rest : List ModelSummary) (u : String)
    (h : primary_uri (describe m.ModelName) = none) :
    uri_writes describe (m :: rest) u = uri_writes describe rest u := by
  simp [uri_writes, List.filterMap_cons, h]

/-- uri_writes over a cons whose head model has primary data URL v. -/
theorem uri_writes_cons_some (describe : String → ModelDetail)
    (m : ModelSummary) (rest : List ModelSummary) (u v : String)
    (h : primary_uri (describe m.ModelName) = some v) :
    uri_writes describe (m :: rest) u =
      (if v = u then [(describe m.ModelName).ModelName] else []) ++
        uri_writes describe rest u := by
  simp only [uri_writes, List.filterMap_cons, h]
  by_cases hv : v = u <;> simp [hv]

/-- image_writes over a cons whose head model has no primary image. -/
theorem image_writes_cons_none (describe : String → ModelDetail)
    (m : ModelSummary) (rest : List ModelSummary) (i : String)
    (h : primary_image (describe m.ModelName) = none) :
    image_writes describe (m :: rest) i = image_writes describe rest i := by
  simp [image_writes, List.filterMap_cons, h]

/-- image_writes over a cons whose head model has primary image v. -/
theorem image_writes_cons_some (describe : String → ModelDetail)
    (m : ModelSummary) (rest : List ModelSummary) (i v : String)
    (h : primary_image (describe m.ModelName) = some v) :
    image_writes describe (m :: rest) i =
      (if v = i then [(describe m.ModelName).ModelName] else []) ++
        image_writes describe rest i := by
  simp only [image_writes, List.filterMap_cons, h]
  by_cases hv : v = i <;> simp [hv]

/-- After the model loop, model_uri_to_name holds, for each key, the
last of the writes made to it, over the prior cell value. -/
theorem models_pass_uri_table (P : ModelProcessorData) (now : Int)
    (describe : String → ModelDetail) (endpoint_arn_to_name : StrDict)
    (l : List ModelSummary) :
    ∀ (st : ModelState) (r : SagemakerSourceReport) (u : String),
    ((models_pass P now describe endpoint_arn_to_name l st
        r).1).model_uri_to_name u =
      last_write (uri_writes describe l u) (st.model_uri_to_name u) := by
  induction l with
  | nil => intro st r u; rfl
  | cons m rest ih =>
      intro st r u
      simp only [models_pass]
      rw [ih]
      have hstep := get_model_wu_uri_table P now st (describe m.ModelName)
        endpoint_arn_to_name
      cases hpu : primary_uri (describe m.ModelName) with
      | none =>
          simp only [hpu] at hstep
          rw [hstep, uri_writes_cons_none describe m rest u hpu]
      | some v =>
          simp only [hpu] at hstep
          rw [hstep, uri_writes_cons_some describe m rest u v hpu]
          by_cases hv : v = u
          · subst hv
            simp [dictInsert, last_write_append, last_write_cons,
              last_write_nil]
          · have huv : ¬(u = v) := fun h => hv h.symm
            simp [dictInsert, huv, hv, last_write_append, last_write_nil]

/-- After the model loop, model_image_to_name holds, for each key, the
last of the writes made to it, over the prior cell value. -/
theorem models_pass_image_table (P : ModelProcessorData) (now : Int)
    (describe : String → ModelDetail) (endpoint_arn_to_name : StrDict)
    (l : List ModelSummary) :
    ∀ (st : ModelState) (r : SagemakerSourceReport) (i : String),
    ((models_pass P now describe endpoint_arn_to_name l st
        r).1).model_image_to_name i =
      last_write (image_writes describe l i) (st.model_image_to_name i) := by
  induction l with
  | nil => intro st r i; rfl
  | cons m rest ih =>
      intro st r i
      simp only [models_pass]
      rw [ih]
      have hstep := get_model_wu_image_table P now st (describe m.ModelName)
        endpoint_arn_to_name
      cases hpi : primary_image (describe m.ModelName) with
      | none =>
          simp only [hpi] at hstep
          rw [hstep, image_writes_cons_none describe m rest i hpi]
      | some v =>
          simp only [hpi] at hstep
          rw [hstep, image_writes_cons_some describe m rest i v hpi]
          by_cases hv : v = i
          · subst hv
            simp [dictInsert, last_write_append, last_write_cons,
              last_write_nil]
          · have hiv : ¬(i = v) := fun h => hv h.symm
            simp [dictInsert, hiv, hv, last_write_append, last_write_nil]

/-- C6: starting from empty side tables, after the model loop over the
ARN-sorted listing, model_uri_to_name maps each key u to the name of the
last processed model whose primary container carries ModelDataUrl u, and
model_image_to_name maps each key i to the name of the last processed
model whose primary container carries Image i; keys never written (in
particular by models with no primary-container field) are absent. -/
theorem side_tables_last_writer_wins (P : ModelProcessorData) (now : Int)
    (describe : String → ModelDetail) (endpoint_arn_to_name : StrDict)
    (listing : List ModelSummary) (r : SagemakerSourceReport) (u i : String) :
    ((models_pass P now describe endpoint_arn_to_name
        (sortByKey (fun m => m.ModelArn) listing)
        { model_uri_to_name := dictEmpty, model_image_to_name := dictEmpty }
        r).1).model_uri_to_name u =
      (uri_writes describe (sortByKey (fun m => m.ModelArn) listing)
        u).getLast? ∧
    ((models_pass P now describe endpoint_arn_to_name
        (sortByKey (fun m => m.ModelArn) listing)
        { model_uri_to_name := dictEmpty, model_image_to_name := dictEmpty }
        r).1).model_image_to_name i =
      (image_writes describe (sortByKey (fun m => m.ModelArn) listing)
        i).getLast? := by
  constructor
  · rw [models_pass_uri_table]
    exact last_write_eq_getLast? _
  · rw [models_pass_image_table]
    exact last_write_eq_getLast? _

/-- Stable sort by key is a permutation of its input. -/
theorem sortByKey_perm {α : Type} (key : α → String) (l : List α) :
    (sortByKey key l).Perm l :=
  List.mergeSort_perm l _

/-- Stable sort by key yields a list pairwise ordered by the key. -/
theorem sortByKey_pairwise {α : Type} (key : α → String) (l : List α) :
    (sortByKey key l).Pairwise (fun a b => key a ≤ key b) := by
  have h := @List.sorted_mergeSort _
    (fun a b => decide (key a ≤ key b))
    (fun a b c hab hbc => by
      simp only [decide_eq_true_eq] at hab hbc ⊢
      exact le_trans hab hbc)
    (fun a b => by
      simp only [Bool.or_eq_true, decide_eq_true_eq]
      exact le_total (key a) (key b))
    l
  exact h.imp (fun hab => by simpa using hab)

/-- Two lists that are permutations of each other, both pairwise ordered
by a key that has no duplicates, are equal. -/
theorem eq_of_perm_of_pairwise_key {α : Type} (key : α → String) :
    ∀ (l1 l2 : List α), l1.Perm l2 →
      l1.Pairwise (fun a b => key a ≤ key b) →
      l2.Pairwise (fun a b => key a ≤ key b) →
      (l1.map key).Nodup → l1 = l2 := by
  intro l1
  induction l1 with
  | nil =>
      intro l2 h _ _ _
      exact (List.Perm.eq_nil h.symm).symm
  | cons a t1 ih =>
      intro l2 h hp1 hp2 hnd
      cases l2 with
      | nil =>
          have := h.eq_nil
          cases this
      | cons b t2 =>
          have hb1 : b ∈ a :: t1 := h.symm.subset (List.mem_cons_self b t2)
          have ha2 : a ∈ b :: t2 := h.subset (List.mem_cons_self a t1)
          have hab : key a ≤ key b := by
            rcases List.mem_cons.mp hb1 with hba | hbt
            · rw [hba]
            · exact (List.pairwise_cons.mp hp1).1 b hbt
          have hba2 : key b ≤ key a := by
            rcases List.mem_cons.mp ha2 with hab2 | hat
            · rw [hab2]
            · exact (List.pairwise_cons.mp hp2).1 a hat
          have hkeq : key a = key b := le_antisymm hab hba2
          have hndc : (key a :: t1.map key).Nodup := by
            rw [List.map_cons] at hnd
            exact hnd
          have hnd1 : key a ∉ t1.map key := (List.nodup_cons.mp hndc).1
          have hbeq : b = a := by
            rcases List.mem_cons.mp hb1 with hba | hbt
            · exact hba
            · exfalso
              exact hnd1 (hkeq ▸ List.mem_map_of_mem key hbt)
          subst hbeq
          have ht : t1.Perm t2 := h.cons_inv
          have hndt : (t1.map key).Nodup := (List.nodup_cons.mp hndc).2
          rw [ih t2 ht (List.pairwise_cons.mp hp1).2
            (List.pairwise_cons.mp hp2).2 hndt]

/-- Sorting by a duplicate-free key is invariant under permutation of
the input listing. -/
theorem sortByKey_eq_of_perm {α : Type} (key : α → String) (l1 l2 : List α)
    (h : l1.Perm l2) (hnd : (l1.map key).Nodup) :
    sortByKey key l1 = sortByKey key l2 := by
  apply eq_of_perm_of_pairwise_key key
  · exact (sortByKey_perm key l1).trans (h.trans (sortByKey_perm key l2).symm)
  · exact sortByKey_pairwise key l1
  · exact sortByKey_pairwise key l2
  · exact ((sortByKey_perm key l1).map key).nodup_iff.mpr hnd

/-- An endpoint workunit does not depend on the clock when the detail
carries a creation time. -/
theorem get_endpoint_wu_clock_free (env : String) (n1 n2 : Int)
    (r : SagemakerSourceReport) (d : EndpointDetail)
    (h : d.CreationTime ≠ none) :
    get_endpoint_wu env n1 r d = get_endpoint_wu env n2 r d := by
  cases hc : d.CreationTime with
  | none => exact absurd hc h
  | some t => simp [get_endpoint_wu, hc]

/-- A model workunit does not depend on the clock when the detail
carries a creation time. -/
theorem get_model_wu_clock_free (P : ModelProcessorData) (n1 n2 : Int)
    (st : ModelState) (d : ModelDetail) (endpoint_arn_to_name : StrDict)
    (h : d.CreationTime ≠ none) :
    get_model_wu P n1 st d endpoint_arn_to_name =
      get_model_wu P n2 st d endpoint_arn_to_name := by
  cases hc : d.CreationTime with
  | none => exact absurd hc h
  | some t => simp [get_model_wu, hc]

/-- A group workunit does not depend on the clock when the detail
carries a creation time. -/
theorem get_group_wu_clock_free (P : ModelProcessorData) (n1 n2 : Int)
    (st : ModelState) (d : GroupDetail)
    (h : d.CreationTime ≠ none) :
    get_group_wu P n1 st d = get_group_wu P n2 st d := by
  cases hc : d.CreationTime with
  | none => exact absurd hc h
  | some t => simp [get_group_wu, hc]

/-- The endpoint loop does not depend on the clock when every listed
endpoint's detail carries a creation time. -/
theorem endpoints_pass_clock_free (env : String) (n1 n2 : Int)
    (describe : String → EndpointDetail) (l : List EndpointSummary) :
    ∀ (d : StrDict) (r : SagemakerSourceReport),
    (∀ e ∈ l, (describe e.EndpointName).CreationTime ≠ none) →
    endpoints_pass env n1 describe l d r =
      endpoints_pass env n2 describe l d r := by
  induction l with
  | nil => intro d r _; rfl
  | cons e rest ih =>
      intro d r h
      simp only [endpoints_pass]
      rw [get_endpoint_wu_clock_free env n1 n2 _ _
        (h e (List.mem_cons_self e rest))]
      rw [ih _ _ (fun x hx => h x (List.mem_cons_of_mem e hx))]

/-- The model loop does not depend on the clock when every listed
model's detail carries a creation time. -/
theorem models_pass_clock_free (P : ModelProcessorData) (n1 n2 : Int)
    (describe : String → ModelDetail) (endpoint_arn_to_name : StrDict)
    (l : List ModelSummary) :
    ∀ (st : ModelState) (r : SagemakerSourceReport),
    (∀ m ∈ l, (describe m.ModelName).CreationTime ≠ none) →
    models_pass P n1 describe endpoint_arn_to_name l st r =
      models_pass P n2 describe endpoint_arn_to_name l st r := by
  induction l with
  | nil => intro st r _; rfl
  | cons m rest ih =>
      intro st r h
      simp only [models_pass]
      rw [get_model_wu_clock_free P n1 n2 _ _ _
        (h m (List.mem_cons_self m rest))]
      rw [ih _ _ (fun x hx => h x (List.mem_cons_of_mem m hx))]

/-- The group loop does not depend on the clock when every listed
group's detail carries a creation time. -/
theorem groups_pass_clock_free (P : ModelProcessorData) (n1 n2 : Int)
    (describe : String → GroupDetail) (st : ModelState)
    (l : List GroupSummary) :
    ∀ (r : SagemakerSourceReport),
    (∀ g ∈ l, (describe g.ModelPackageGroupName).CreationTime ≠ none) →
    groups_pass P n1 describe st l r = groups_pass P n2 describe st l r := by
  induction l with
  | nil => intro r _; rfl
  | cons g rest ih =>
      intro r h
      simp only [groups_pass]
      rw [get_group_wu_clock_free P n1 n2 _ _
        (h g (List.mem_cons_self g rest))]
      rw [ih _ (fun x hx => h x (List.mem_cons_of_mem g hx))]

/-- Appending fixed strings on both sides is injective. -/
theorem string_append_inj (x y : String) :
    Function.Injective (fun s => x ++ s ++ y) := by
  intro a b h
  have hd := congrArg String.data h
  simp only [String.data_append, List.append_assoc] at hd
  have h2 := List.append_cancel_left hd
  have h3 := List.append_cancel_right h2
  exact String.ext h3

/-- The deployment URN builder is injective in the name. -/
theorem make_ml_model_deployment_urn_inj (platform env : String) :
    Function.Injective
      (fun name => make_ml_model_deployment_urn platform name env) := by
  intro a b h
  simp only [make_ml_model_deployment_urn] at h
  apply string_append_inj
    ("urn:li:mlModelDeployment:(urn:li:dataPlatform:" ++ platform ++ ",")
    ("," ++ env ++ ")")
  show "urn:li:mlModelDeployment:(urn:li:dataPlatform:" ++ platform ++ "," ++
      a ++ ("," ++ env ++ ")") =
    "urn:li:mlModelDeployment:(urn:li:dataPlatform:" ++ platform ++ "," ++
      b ++ ("," ++ env ++ ")")
  simp only [String.append_assoc] at h ⊢
  exact h

/-- The model URN builder is injective in the name. -/
theorem make_ml_model_urn_inj (platform env : String) :
    Function.Injective (fun name => make_ml_model_urn platform name env) := by
  intro a b h
  simp only [make_ml_model_urn] at h
  apply string_append_inj
    ("urn:li:mlModel:(urn:li:dataPlatform:" ++ platform ++ ",")
    ("," ++ env ++ ")")
  show "urn:li:mlModel:(urn:li:dataPlatform:" ++ platform ++ "," ++
      a ++ ("," ++ env ++ ")") =
    "urn:li:mlModel:(urn:li:dataPlatform:" ++ platform ++ "," ++
      b ++ ("," ++ env ++ ")")
  simp only [String.append_assoc] at h ⊢
  exact h

/-- Sorting preserves freedom from duplicates. -/
theorem sortedStr_nodup (l : List String) (h : l.Nodup) :
    (sortedStr l).Nodup :=
  (List.mergeSort_perm l _).nodup_iff.mpr h

/-- Every cross-reference list of a model workunit is duplicate-free. -/
theorem get_model_wu_crossrefs_nodup (P : ModelProcessorData) (now : Int)
    (st : ModelState) (d : ModelDetail) (endpoint_arn_to_name : StrDict) :
    (wu_deployments (get_model_wu P now st d endpoint_arn_to_name).1).Nodup ∧
    (wu_trainingJobs (get_model_wu P now st d endpoint_arn_to_name).1).Nodup ∧
    (wu_downstreamJobs (get_model_wu P now st d endpoint_arn_to_name).1).Nodup ∧
    (wu_models (get_model_wu P now st d endpoint_arn_to_name).1).Nodup := by
  refine ⟨?_, ?_, ?_, ?_⟩
  · simp only [get_model_wu, wu_deployments]
    exact List.Nodup.map (make_ml_model_deployment_urn_inj "sagemaker" P.env)
      (sortedStr_nodup _ (List.Nodup.filter _ (List.nodup_dedup _)))
  · simp only [get_model_wu, wu_trainingJobs]
    exact sortedStr_nodup _ (List.nodup_dedup _)
  · simp only [get_model_wu, wu_downstreamJobs]
    exact sortedStr_nodup _ (List.nodup_dedup _)
  · simp only [get_model_wu, wu_models]
    exact List.nodup_nil

/-- Every cross-reference list of an emitted group workunit is
duplicate-free. -/
theorem get_group_wu_crossrefs_nodup (P : ModelProcessorData) (now : Int)
    (st : ModelState) (d : GroupDetail) (wu : MetadataWorkUnit)
    (h : get_group_wu P now st d = some wu) :
    (wu_deployments wu).Nodup ∧ (wu_trainingJobs wu).Nodup ∧
    (wu_downstreamJobs wu).Nodup ∧ (wu_models wu).Nodup := by
  simp only [get_group_wu] at h
  split at h
  · rw [Option.some.injEq] at h
    subst h
    refine ⟨List.nodup_nil, List.nodup_nil, List.nodup_nil, ?_⟩
    simp only [wu_models]
    exact sortedStr_nodup _
      (List.Nodup.map (make_ml_model_urn_inj "sagemaker" P.env)
        (List.nodup_dedup _))
  · cases h

/-- Every cross-reference list of an endpoint workunit is empty. -/
theorem get_endpoint_wu_crossrefs_empty (env : String) (now : Int)
    (r : SagemakerSourceReport) (d : EndpointDetail) :
    wu_deployments (get_endpoint_wu env now r d).1 = [] ∧
    wu_trainingJobs (get_endpoint_wu env now r d).1 = [] ∧
    wu_downstreamJobs (get_endpoint_wu env now r d).1 = [] ∧
    wu_models (get_endpoint_wu env now r d).1 = [] := by
  refine ⟨rfl, rfl, rfl, rfl⟩

/-- Every workunit yielded by the endpoint loop is an endpoint
workunit. -/
theorem endpoints_pass_wu_mem (env : String) (now : Int)
    (describe : String → EndpointDetail) (l : List EndpointSummary) :
    ∀ (t : StrDict) (r : SagemakerSourceReport) (wu : MetadataWorkUnit),
      wu ∈ (endpoints_pass env now describe l t r).2.1 →
      ∃ rep det, wu = (get_endpoint_wu env now rep det).1 := by
  induction l with
  | nil => intro t r wu h; cases h
  | cons e rest ih =>
      intro t r wu h
      simp only [endpoints_pass, List.mem_cons] at h
      rcases h with h | h
      · exact ⟨_, _, h⟩
      · exact ih _ _ wu h

/-- Every workunit yielded by the model loop is a model workunit. -/
theorem models_pass_wu_mem (P : ModelProcessorData) (now : Int)
    (describe : String → ModelDetail) (endpoint_arn_to_name : StrDict)
    (l : List ModelSummary) :
    ∀ (st : ModelState) (r : SagemakerSourceReport) (wu : MetadataWorkUnit),
      wu ∈ (models_pass P now describe endpoint_arn_to_name l st r).2.1 →
      ∃ st2 det, wu = (get_model_wu P now st2 det endpoint_arn_to_name).1 := by
  induction l with
  | nil => intro st r wu h; cases h
  | cons m rest ih =>
      intro st r wu h
      simp only [models_pass, List.mem_cons] at h
      rcases h with h | h
      · exact ⟨_, _, h⟩
      · exact ih _ _ wu h

/-- Every workunit yielded by the group loop was emitted by
get_group_wu. -/
theorem groups_pass_wu_mem (P : ModelProcessorData) (now : Int)
    (describe : String → GroupDetail) (st : ModelState)
    (l : List GroupSummary) :
    ∀ (r : SagemakerSourceReport) (wu : MetadataWorkUnit),
      wu ∈ (groups_pass P now describe st l r).1 →
      ∃ det, get_group_wu P now st det = some wu := by
  induction l with
  | nil => intro r wu h; cases h
  | cons g rest ih =>
      intro r wu h
      simp only [groups_pass] at h
      split at h
      · cases h
      · rename_i wu2 heq
        rcases List.mem_cons.mp h with h | h
        · exact ⟨_, h ▸ heq⟩
        · exact ih _ wu h

/-- Every cross-reference list in the scan output is duplicate-free. -/
theorem scan_crossrefs_nodup (P : ModelProcessorData) (now : Int)
    (c : SagemakerClient) :
    ∀ wu ∈ (get_workunits P now c).1,
      (wu_deployments wu).Nodup ∧ (wu_trainingJobs wu).Nodup ∧
      (wu_downstreamJobs wu).Nodup ∧ (wu_models wu).Nodup := by
  intro wu h
  simp only [get_workunits, List.mem_append] at h
  rcases h with (h | h) | h
  · obtain ⟨rep, det, hwu⟩ := endpoints_pass_wu_mem _ _ _ _ _ _ wu h
    subst hwu
    have he := get_endpoint_wu_crossrefs_empty P.env now rep det
    refine ⟨?_, ?_, ?_, ?_⟩
    · rw [he.1]; exact List.nodup_nil
    · rw [he.2.1]; exact List.nodup_nil
    · rw [he.2.2.1]; exact List.nodup_nil
    · rw [he.2.2.2]; exact List.nodup_nil
  · obtain ⟨st2, det, hwu⟩ := models_pass_wu_mem _ _ _ _ _ _ _ wu h
    subst hwu
    exact get_model_wu_crossrefs_nodup _ _ _ _ _
  · obtain ⟨det, hdet⟩ := groups_pass_wu_mem _ _ _ _ _ _ wu h
    exact get_group_wu_crossrefs_nodup _ _ _ _ _ hdet

/-- C5: for a fixed set of API responses in which every entity carries a
creation time, two scan runs whose clients return the listings in any
order (and possibly at different clock times) produce identical output —
workunit sequence, report and failure flag — and every resolved
cross-reference list of the output is deduplicated; the listings are
keyed without duplicates by ARN (endpoints, models) and name (groups). -/
theorem scan_output_deterministic
    (P : ModelProcessorData) (now1 now2 : Int) (c1 c2 : SagemakerClient)
    (hde : c2.describe_endpoint = c1.describe_endpoint)
    (hdm : c2.describe_model = c1.describe_model)
    (hdg : c2.describe_model_package_group = c1.describe_model_package_group)
    (hpe : c1.list_endpoints.Perm c2.list_endpoints)
    (hpm : c1.list_models.Perm c2.list_models)
    (hpg : c1.list_model_package_groups.Perm c2.list_model_package_groups)
    (hne : (c1.list_endpoints.map (fun e => e.EndpointArn)).Nodup)
    (hnm : (c1.list_models.map (fun m => m.ModelArn)).Nodup)
    (hng : (c1.list_model_package_groups.map
        (fun g => g.ModelPackageGroupName)).Nodup)
    (hte : ∀ e ∈ c1.list_endpoints,
      (c1.describe_endpoint e.EndpointName).CreationTime ≠ none)
    (htm : ∀ m ∈ c1.list_models,
      (c1.describe_model m.ModelName).CreationTime ≠ none)
    (htg : ∀ g ∈ c1.list_model_package_groups,
      (c1.describe_model_package_group
        g.ModelPackageGroupName).CreationTime ≠ none) :
    get_workunits P now1 c1 = get_workunits P now2 c2 ∧
    ∀ wu ∈ (get_workunits P now1 c1).1,
      (wu_deployments wu).Nodup ∧ (wu_trainingJobs wu).Nodup ∧
      (wu_downstreamJobs wu).Nodup ∧ (wu_models wu).Nodup := by
  refine ⟨?_, scan_crossrefs_nodup P now1 c1⟩
  have he : sortByKey (fun e => e.EndpointArn) c2.list_endpoints =
      sortByKey (fun e => e.EndpointArn) c1.list_endpoints :=
    (sortByKey_eq_of_perm _ _ _ hpe hne).symm
  have hm : sortByKey (fun m => m.ModelArn) c2.list_models =
      sortByKey (fun m => m.ModelArn) c1.list_models :=
    (sortByKey_eq_of_perm _ _ _ hpm hnm).symm
  have hg : sortByKey (fun g => g.ModelPackageGroupName)
        c2.list_model_package_groups =
      sortByKey (fun g => g.ModelPackageGroupName)
        c1.list_model_package_groups :=
    (sortByKey_eq_of_perm _ _ _ hpg hng).symm
  simp only [get_workunits, hde, hdm, hdg, he, hm, hg]
  rw [endpoints_pass_clock_free P.env now1 now2 c1.describe_endpoint
    (sortByKey (fun e => e.EndpointArn) c1.list_endpoints) dictEmpty {}
    (fun e hx => hte e
      ((sortByKey_perm (fun e => e.EndpointArn) c1.list_endpoints).subset hx))]
  rw [models_pass_clock_free P now1 now2 c1.describe_model
    (endpoints_pass P.env now2 c1.describe_endpoint
      (sortByKey (fun e => e.EndpointArn) c1.list_endpoints) dictEmpty {}).1
    (sortByKey (fun m => m.ModelArn) c1.list_models)
    { model_uri_to_name := dictEmpty, model_image_to_name := dictEmpty }
    (endpoints_pass P.env now2 c1.describe_endpoint
      (sortByKey (fun e => e.EndpointArn) c1.list_endpoints) dictEmpty {}).2.2
    (fun m hx => htm m
      ((sortByKey_perm (fun m => m.ModelArn) c1.list_models).subset hx))]
  rw [groups_pass_clock_free P now1 now2 c1.describe_model_package_group
    (models_pass P now2 c1.describe_model
      (endpoints_pass P.env now2 c1.describe_endpoint
        (sortByKey (fun e => e.EndpointArn) c1.list_endpoints) dictEmpty {}).1
      (sortByKey (fun m => m.ModelArn) c1.list_models)
      { model_uri_to_name := dictEmpty, model_image_to_name := dictEmpty }
      (endpoints_pass P.env now2 c1.describe_endpoint
        (sortByKey (fun e => e.EndpointArn) c1.list_endpoints) dictEmpty
        {}).2.2).1
    (sortByKey (fun g => g.ModelPackageGroupName)
      c1.list_model_package_groups)
    (models_pass P now2 c1.describe_model
      (endpoints_pass P.env now2 c1.describe_endpoint
        (sortByKey (fun e => e.EndpointArn) c1.list_endpoints) dictEmpty {}).1
      (sortByKey (fun m => m.ModelArn) c1.list_models)
      { model_uri_to_name := dictEmpty, model_image_to_name := dictEmpty }
      (endpoints_pass P.env now2 c1.describe_endpoint
        (sortByKey (fun e => e.EndpointArn) c1.list_endpoints) dictEmpty
        {}).2.2).2.2
    (fun g hx => htg g
      ((sortByKey_perm (fun g => g.ModelPackageGroupName)
        c1.list_model_package_groups).subset hx))]

/-- A one-entry-per-listing client whose details all carry creation
times. -/
def witnessClient : SagemakerClient where
  list_endpoints := [{ EndpointName := "e1", EndpointArn := "earn1" }]
  describe_endpoint := fun n =>
    { EndpointName := n, EndpointArn := "earn1",
      EndpointStatus := some "InService", CreationTime := some 0 }
  list_models := [{ ModelName := "m1", ModelArn := "marn1" }]
  describe_model := fun n =>
    { ModelName := n, CreationTime := some 0, PrimaryContainer := none }
  list_model_package_groups := [{ ModelPackageGroupName := "g1" }]
  describe_model_package_group := fun n =>
    { ModelPackageGroupName := n, ModelPackageGroupArn := "garn1",
      ModelPackageGroupDescription := none, CreatedBy := none,
      CreationTime := some 0 }

/-- Witness for C5. -/
theorem scan_output_deterministic_witness :
    get_workunits emptyProcessor 0 witnessClient =
      get_workunits emptyProcessor 0 witnessClient ∧
    ∀ wu ∈ (get_workunits emptyProcessor 0 witnessClient).1,
      (wu_deployments wu).Nodup ∧ (wu_trainingJobs wu).Nodup ∧
      (wu_downstreamJobs wu).Nodup ∧ (wu_models wu).Nodup :=
  scan_output_deterministic emptyProcessor 0 0 witnessClient witnessClient
    rfl rfl rfl (List.Perm.refl _) (List.Perm.refl _) (List.Perm.refl _)
    (by decide) (by decide) (by decide)
    (by intro e he; cases List.mem_singleton.mp he; decide)
    (by intro m hms; cases List.mem_singleton.mp hms; decide)
    (by intro g hgs; cases List.mem_singleton.mp hgs; decide)
